import Mathlib

/-!
# Verification of the goloop consensus vote-list and signed-message core

A shallow embedding of the vote-aggregation / quorum-verification code of the
`consensus` package (`voteList.Verify`, `newVoteList`, `NewVoteListFromBytes`,
`signedBase`) and of the IISS `Account` state object (`Clone`, `equal`,
`SetStake`), together with theorems settling the specified properties.

Bytes are modelled as `Nat` values, byte strings as `List Nat`.  Machine
integers (`int32` rounds, `int64` heights) are modelled as `Int`, with explicit
two's-complement arithmetic (`% 2^32`) where serialization makes overflow
observable.  Go functions that can panic are modelled as `Option`-returning
functions where `none` marks the abort.  The cryptographic primitives
(`crypto.SHA3Sum256`, `Signature.RecoverPublicKey`,
`common.NewAccountAddressFromPublicKey`) live outside the embedded sources and
are abstracted as explicit function parameters, so every theorem about the
embedded code holds for an arbitrary choice of these primitives.
-/

namespace Goloop

/-- A byte string (entries are byte values). -/
abbrev Bytes := List Nat

/-- An account address (`common.Address`), as its byte representation. -/
abbrev Address := List Nat

/-- A signature (`common.Signature`), as its byte representation. -/
abbrev Signature := List Nat

/-- A recovered public key (`crypto.PublicKey`), as its byte representation. -/
abbrev PublicKey := List Nat

/-- Modelled from the spec: the block part-set identifier ("identifier
referencing how a block's payload is split into transmittable parts").  The
concrete `PartSetID` struct is not among the embedded sources; per the wire
format of §6 it carries a 16-bit part count and a hash. -/
structure PartSetID where
  count : Nat
  hash : Bytes
deriving DecidableEq, Repr

/-- The `voteList` struct of the `consensus` package: a round, an optional
block part-set identifier (a nil-able pointer in Go, hence `Option`), and an
ordered sequence of signatures. -/
structure voteList where
  Round : Int
  BlockPartSetID : Option PartSetID
  Signatures : List Signature
deriving DecidableEq, Repr

/-- The part of `module.Block` that `voteList.Verify` consumes: `Height()`,
`ID()` and `NextValidators()` (the latter as its ordered list of validator
addresses). -/
structure Block where
  height : Int
  id : Bytes
  nextValidators : List Address
deriving DecidableEq, Repr

/-- `ValidatorList.IndexOf` on the ordered validator list: the index of the
first occurrence of the address, `-1` if absent. -/
def addrIndex (vs : List Address) (a : Address) : Int :=
  match vs with
  | [] => -1
  | v :: rest =>
    if v = a then 0
    else
      let r := addrIndex rest a
      if r < 0 then -1 else r + 1

/-- Index lookup as performed by `Verify`: `msg.address()` may be nil when
public-key recovery fails, and a nil address is not found in the validator
list (index `-1`). -/
def indexOfAddr (vs : List Address) : Option Address → Int
  | none => -1
  | some a => addrIndex vs a

/-- The three rejection conditions of `voteList.Verify`, named per the spec's
error taxonomy (§7).  In the source each is an `errors.Errorf` with a
formatted message; the payloads model the formatted-in data. -/
inductive VerifyError where
  /-- "voters for height 1": a non-empty signature list at height 1. -/
  | unexpectedVoters
  /-- "bad voter ... at index i in vote list": a signer not in the validator
  set (the position of the offending signature is carried). -/
  | badVoter (index : Nat)
  /-- "votes(k) <= 2/3 of validators(n)": the count did not exceed the
  two-thirds threshold. -/
  | insufficientVotes (votes : Nat) (validators : Nat)
deriving DecidableEq, Repr

/-- The signature loop of `voteList.Verify` (lines 37–44) in its
per-signature-recovery reading (spec §4.2: "for each signature, substitute
it into the template, verify the signature, recover the address, and look up
that address's index"): each signature's address is recovered independently
(`addrOf`), and the first signer not found aborts the whole verification
with a bad-voter error; `i` is the running index.  The loop as the program
executes it additionally threads the reused template's `signedBase`
memoization — that faithful composition is `verifyLoop` below, and the two
agree whenever the first signature's resolution settles the loop (in
particular on the hypothesis domains of the theorems stated over this
reading). -/
def checkVoters (addrOf : Signature → Option Address) (validators : List Address) :
    Nat → List Signature → Except VerifyError Unit
  | _, [] => Except.ok ()
  | i, sig :: rest =>
    if indexOfAddr validators (addrOf sig) < 0 then Except.error (VerifyError.badVoter i)
    else checkVoters addrOf validators (i + 1) rest

/-- `voteList.Verify(block)` in the per-signature-recovery reading of spec
§4.2, with the address recovery over the reconstructed `voteMessage`
template ("height, round, type=precommit, blockID, partSetID" with the
signature substituted in) abstracted as the parameter `addrOf`.  Everything
else mirrors the source: height 1 accepts exactly the empty list; otherwise
every signer must be found in `block.NextValidators()`, and the signature
count must strictly exceed `validators.Len() * 2 / 3` (integer floor
division).  The program's actual loop reuses one template whose `signedBase`
memoizes the first recovered key; that composition is `voteList.VerifyImpl`
below, and it coincides with this reading on the height-1 branch (no loop at
all) and whenever the first signature's resolution settles the loop — e.g.
when every signature resolves to a validator (the quorum theorem's
hypothesis) or when the loop's outcome is decided at index 0 (the
duplicate-signer counterexample, where all three signatures recover the same
validator key). -/
def voteList.Verify (addrOf : Signature → Option Address) (vl : voteList) (blk : Block) :
    Except VerifyError Unit :=
  if blk.height = 1 then
    if vl.Signatures.length = 0 then Except.ok ()
    else Except.error VerifyError.unexpectedVoters
  else
    match checkVoters addrOf blk.nextValidators 0 vl.Signatures with
    | Except.error e => Except.error e
    | Except.ok () =>
      let twoThirds := blk.nextValidators.length * 2 / 3
      if vl.Signatures.length > twoThirds then Except.ok ()
      else Except.error (VerifyError.insufficientVotes vl.Signatures.length blk.nextValidators.length)

/-! ### Basic lemmas about the validator lookup and the signer loop -/

/-- `addrIndex` is non-negative exactly on members of the list. -/
theorem addrIndex_nonneg_iff_mem (vs : List Address) (a : Address) :
    0 ≤ addrIndex vs a ↔ a ∈ vs := by
  induction vs with
  | nil => simp [addrIndex]
  | cons v rest ih =>
    simp only [addrIndex, List.mem_cons]
    by_cases hv : v = a
    · simp [hv]
    · by_cases hr : addrIndex rest a < 0
      · simp only [hv, if_false, hr, if_true]
        constructor
        · intro h; omega
        · intro h
          rcases h with h | h
          · exact absurd h.symm hv
          · have := ih.mpr h; omega
      · simp only [hv, if_false, hr]
        constructor
        · intro _; exact Or.inr (ih.mp (by omega))
        · intro _; omega

/-- The signer loop succeeds exactly when every signature's recovered address
is found in the validator list. -/
theorem checkVoters_ok_iff (addrOf : Signature → Option Address) (validators : List Address)
    (i : Nat) (sigs : List Signature) :
    checkVoters addrOf validators i sigs = Except.ok () ↔
      ∀ sig ∈ sigs, 0 ≤ indexOfAddr validators (addrOf sig) := by
  induction sigs generalizing i with
  | nil => simp [checkVoters]
  | cons sig rest ih =>
    simp only [checkVoters, List.mem_cons]
    by_cases hbad : indexOfAddr validators (addrOf sig) < 0
    · simp only [hbad, if_true]
      constructor
      · intro h; cases h
      · intro h
        have := h sig (Or.inl rfl)
        omega
    · simp only [hbad, if_false, ih]
      constructor
      · intro h s hs
        rcases hs with hs | hs
        · subst hs; omega
        · exact h s hs
      · intro h s hs
        exact h s (Or.inr hs)

/-! ### C1–C3: the quorum decision of `voteList.Verify` -/

/-- C1: for a block of height > 1 and a vote list all of whose signatures
resolve to addresses present in `block.NextValidators()`, `Verify` succeeds
iff the number of signatures strictly exceeds `validatorCount * 2 / 3`
(integer floor division), and otherwise fails with the insufficient-votes
error. -/
theorem verify_quorum_iff (addrOf : Signature → Option Address) (vl : voteList) (blk : Block)
    (hh : 1 < blk.height)
    (hres : ∀ sig ∈ vl.Signatures, ∃ a, addrOf sig = some a ∧ a ∈ blk.nextValidators) :
    (vl.Verify addrOf blk = Except.ok () ↔
      blk.nextValidators.length * 2 / 3 < vl.Signatures.length)
    ∧ (vl.Signatures.length ≤ blk.nextValidators.length * 2 / 3 →
        vl.Verify addrOf blk =
          Except.error
            (VerifyError.insufficientVotes vl.Signatures.length blk.nextValidators.length)) := by
  have hne : blk.height ≠ 1 := by omega
  have hok : checkVoters addrOf blk.nextValidators 0 vl.Signatures = Except.ok () := by
    rw [checkVoters_ok_iff]
    intro sig hs
    obtain ⟨a, ha, hmem⟩ := hres sig hs
    simp only [indexOfAddr, ha]
    exact (addrIndex_nonneg_iff_mem _ _).mpr hmem
  unfold voteList.Verify
  rw [if_neg hne, hok]
  by_cases hq : blk.nextValidators.length * 2 / 3 < vl.Signatures.length
  · constructor
    · simp [hq]
    · intro h; omega
  · constructor
    · simp [hq]
    · intro _
      simp only []
      rw [if_neg (by omega)]

/-- Witness for C1: 4 validators, 3 signatures each resolving to a distinct
validator, at height 10: `3 > 4*2/3 = 2`, so `Verify` succeeds. -/
theorem verify_quorum_iff_witness :
    (1 : Int) < 10 ∧
    voteList.Verify (fun s => some s) ⟨0, none, [[0], [1], [2]]⟩
        ⟨10, [], [[0], [1], [2], [3]]⟩ = Except.ok () := by
  refine ⟨by decide, ?_⟩
  exact (verify_quorum_iff (fun s => some s) ⟨0, none, [[0], [1], [2]]⟩
    ⟨10, [], [[0], [1], [2], [3]]⟩ (by decide)
    (by
      intro sig hs
      refine ⟨sig, rfl, ?_⟩
      fin_cases hs <;> decide)).1.mpr (by decide)

/-- C2, as written, fails on the code: `Verify` counts raw signatures and
never deduplicates signers.  Here 3 validators give a threshold of
`3 * 2 / 3 = 2`; the three signatures all recover to the single validator
address `[0]` (one distinct signer, which does not exceed the threshold), yet
`Verify` accepts because the raw signature count 3 exceeds 2. -/
theorem verify_accepts_duplicate_signers :
    voteList.Verify (fun _ => some [0]) ⟨0, none, [[1], [2], [3]]⟩ ⟨10, [], [[0], [1], [2]]⟩ =
      Except.ok ()
    ∧ (∀ sig ∈ ([[1], [2], [3]] : List Signature),
        (fun (_ : Signature) => some ([0] : Address)) sig = some [0])
    ∧ (3 : Nat) * 2 / 3 = 2 ∧ ¬ ((1 : Nat) > 2) := by
  exact ⟨rfl, fun _ _ => rfl, rfl, by decide⟩

/-- C3: at height 1 `Verify` succeeds iff the signature list is empty, a
non-empty list fails with the unexpected-voters error, and the result is
independent of the validator set and of address recovery (no validator-set
lookup or threshold arithmetic takes part in the decision). -/
theorem verify_height_one (addrOf : Signature → Option Address) (vl : voteList) (blk : Block)
    (hh : blk.height = 1) :
    (vl.Verify addrOf blk = Except.ok () ↔ vl.Signatures = [])
    ∧ (vl.Signatures ≠ [] → vl.Verify addrOf blk = Except.error VerifyError.unexpectedVoters)
    ∧ (∀ (vs : List Address) (addrOf2 : Signature → Option Address),
        voteList.Verify addrOf2 vl { blk with nextValidators := vs } =
          vl.Verify addrOf blk) := by
  have hcore : ∀ (f : Signature → Option Address) (b : Block), b.height = 1 →
      voteList.Verify f vl b =
        (if vl.Signatures.length = 0 then Except.ok ()
         else Except.error VerifyError.unexpectedVoters) := by
    intro f b hb
    unfold voteList.Verify
    rw [if_pos hb]
  refine ⟨?_, ?_, ?_⟩
  · rw [hcore addrOf blk hh]
    by_cases h : vl.Signatures.length = 0
    · simp [h, List.length_eq_zero.mp h]
    · simp only [h, if_false]
      constructor
      · intro hc; cases hc
      · intro hc; exact absurd (by rw [hc]; rfl) h
  · intro hne
    rw [hcore addrOf blk hh,
      if_neg (fun h0 => hne (List.length_eq_zero.mp h0))]
  · intro vs f
    rw [hcore f { blk with nextValidators := vs } hh, hcore addrOf blk hh]

/-- Witness for C3: a height-1 block accepts the empty vote list and rejects
a singleton one, whatever the (empty) validator set. -/
theorem verify_height_one_witness :
    voteList.Verify (fun _ => none) ⟨0, none, []⟩ ⟨1, [], []⟩ = Except.ok ()
    ∧ voteList.Verify (fun _ => none) ⟨0, none, [[7]]⟩ ⟨1, [], []⟩ =
        Except.error VerifyError.unexpectedVoters := by
  constructor
  · exact (verify_height_one (fun _ => none) ⟨0, none, []⟩ ⟨1, [], []⟩ rfl).1.mpr rfl
  · exact (verify_height_one (fun _ => none) ⟨0, none, [[7]]⟩ ⟨1, [], []⟩ rfl).2.1 (by decide)

/-! ### C6: `newVoteList` — batch construction from vote messages -/

/-- Modelled from the spec: the fields of `voteMessage` that `newVoteList`
reads (`Round`, `BlockPartSetID`, `BlockID`, `Signature`); the `voteMessage`
type itself is not among the embedded sources.  Per §3 a vote carries height,
round, vote type, block identifier, block part-set identifier and an embedded
signed message; only the four fields below are consumed here. -/
structure voteMessage where
  Round : Int
  BlockPartSetID : Option PartSetID
  BlockID : Bytes
  Signature : Signature
deriving DecidableEq, Repr

/-- `newVoteList(msgs)`: an empty batch yields the zero-valued list; a
non-empty batch takes the first message's round and part-set identifier and
all signatures in batch order, and aborts the process
(`logger.Panicf`, modelled as `none`) if any message's block identifier
differs from the first message's. -/
def newVoteList (msgs : List voteMessage) : Option voteList :=
  match msgs with
  | [] => some ⟨0, none, []⟩
  | m0 :: _ =>
    if msgs.all (fun m => m.BlockID = m0.BlockID) then
      some ⟨m0.Round, m0.BlockPartSetID, msgs.map voteMessage.Signature⟩
    else none

/-- C6: on a non-empty batch, `newVoteList` panics (returns `none`) exactly
when some message's block identifier differs from the first message's; when
all agree it returns the vote list carrying the first message's round and
block part-set identifier and the messages' signatures in batch order. -/
theorem newVoteList_spec (m0 : voteMessage) (rest : List voteMessage) :
    ((∃ m ∈ m0 :: rest, m.BlockID ≠ m0.BlockID) ↔ newVoteList (m0 :: rest) = none)
    ∧ ((∀ m ∈ m0 :: rest, m.BlockID = m0.BlockID) →
        newVoteList (m0 :: rest) =
          some ⟨m0.Round, m0.BlockPartSetID, (m0 :: rest).map voteMessage.Signature⟩) := by
  have hcond : (((m0 :: rest).all fun m => decide (m.BlockID = m0.BlockID)) = true) ↔
      ∀ m ∈ m0 :: rest, m.BlockID = m0.BlockID := by
    simp [List.all_eq_true]
  by_cases hall : ∀ m ∈ m0 :: rest, m.BlockID = m0.BlockID
  · have hvl : newVoteList (m0 :: rest) =
        some ⟨m0.Round, m0.BlockPartSetID, (m0 :: rest).map voteMessage.Signature⟩ := by
      simp only [newVoteList]
      rw [if_pos (hcond.mpr hall)]
    refine ⟨?_, fun _ => hvl⟩
    rw [hvl]
    constructor
    · rintro ⟨m, hm, hne⟩
      exact absurd (hall m hm) hne
    · intro h
      exact Option.noConfusion h
  · have hvl : newVoteList (m0 :: rest) = none := by
      simp only [newVoteList]
      rw [if_neg (fun h => hall (hcond.mp h))]
    refine ⟨?_, fun h => absurd h hall⟩
    rw [hvl]
    constructor
    · intro _; rfl
    · intro _
      push_neg at hall
      exact hall

/-- Witness for C6: a two-message batch with agreeing block identifiers
assembles round, part-set identifier and both signatures; flipping the second
message's block identifier makes construction abort. -/
theorem newVoteList_spec_witness :
    newVoteList [⟨3, some ⟨1, [5]⟩, [9], [11]⟩, ⟨3, some ⟨1, [5]⟩, [9], [12]⟩] =
      some ⟨3, some ⟨1, [5]⟩, [[11], [12]]⟩
    ∧ newVoteList [⟨3, some ⟨1, [5]⟩, [9], [11]⟩, ⟨3, some ⟨1, [5]⟩, [8], [12]⟩] = none := by
  constructor
  · exact (newVoteList_spec ⟨3, some ⟨1, [5]⟩, [9], [11]⟩ [⟨3, some ⟨1, [5]⟩, [9], [12]⟩]).2
      (by decide)
  · exact (newVoteList_spec ⟨3, some ⟨1, [5]⟩, [9], [11]⟩ [⟨3, some ⟨1, [5]⟩, [8], [12]⟩]).1.mp
      ⟨⟨3, some ⟨1, [5]⟩, [8], [12]⟩, by decide, by decide⟩

/-! ### C5: serialization round-trip (`Bytes` / `NewVoteListFromBytes`)

Modelled from the spec: the `codec.MP` marshalling used by `vlCodec` is an
external collaborator's codec, not among the embedded sources; per §6 the
wire format is "round (signed 32-bit), block part-set identifier, ordered
list of signatures", a "length-prefixed canonical binary encoding", canonical
and deterministic.  The encoders below realise that layout; the decoders
consume a prefix of the byte string and return the unconsumed remainder, as
`codec.UnmarshalFromBytes` does, and return `none` instead of panicking on
malformed input. -/

/-- Big-endian 32-bit encoder (lengths and the round's two's-complement
image). -/
def encodeNat32 (n : Nat) : Bytes :=
  [n / 2 ^ 24 % 256, n / 2 ^ 16 % 256, n / 2 ^ 8 % 256, n % 256]

/-- Big-endian 32-bit decoder. -/
def decodeNat32 : Bytes → Option (Nat × Bytes)
  | b0 :: b1 :: b2 :: b3 :: rest => some (b0 * 2 ^ 24 + b1 * 2 ^ 16 + b2 * 2 ^ 8 + b3, rest)
  | _ => none

/-- Big-endian 16-bit encoder (the part count is a `uint16`). -/
def encodeNat16 (n : Nat) : Bytes := [n / 2 ^ 8 % 256, n % 256]

/-- Big-endian 16-bit decoder. -/
def decodeNat16 : Bytes → Option (Nat × Bytes)
  | b0 :: b1 :: rest => some (b0 * 2 ^ 8 + b1, rest)
  | _ => none

/-- A length-prefixed byte-string field. -/
def encodeBytesField (bs : Bytes) : Bytes := encodeNat32 bs.length ++ bs

/-- Decoder for a length-prefixed byte-string field. -/
def decodeBytesField (bs : Bytes) : Option (Bytes × Bytes) :=
  (decodeNat32 bs).bind fun nr =>
    if nr.1 ≤ nr.2.length then some (nr.2.take nr.1, nr.2.drop nr.1) else none

/-- The round is an `int32`, serialized in two's complement. -/
def encodeRound (r : Int) : Bytes := encodeNat32 (r % 2 ^ 32).toNat

/-- Decoder for the two's-complement round. -/
def decodeRound (bs : Bytes) : Option (Int × Bytes) :=
  (decodeNat32 bs).bind fun nr =>
    some (if nr.1 < 2 ^ 31 then (nr.1 : Int) else (nr.1 : Int) - 2 ^ 32, nr.2)

/-- Encoder for a part-set identifier: part count, then hash. -/
def encodePartSetID (p : PartSetID) : Bytes := encodeNat16 p.count ++ encodeBytesField p.hash

/-- Decoder for a part-set identifier. -/
def decodePartSetID (bs : Bytes) : Option (PartSetID × Bytes) :=
  (decodeNat16 bs).bind fun cr =>
    (decodeBytesField cr.2).bind fun hr => some (⟨cr.1, hr.1⟩, hr.2)

/-- A nil-able pointer field is encoded behind a presence tag. -/
def encodeOptPartSetID : Option PartSetID → Bytes
  | none => [0]
  | some p => 1 :: encodePartSetID p

/-- Decoder for the nil-able part-set identifier field. -/
def decodeOptPartSetID : Bytes → Option (Option PartSetID × Bytes)
  | [] => none
  | t :: rest =>
    if t = 0 then some (none, rest)
    else if t = 1 then (decodePartSetID rest).bind fun pr => some (some pr.1, pr.2)
    else none

/-- Encoder for the ordered signature sequence: count, then each signature
as a length-prefixed field. -/
def encodeSignatures (l : List Signature) : Bytes :=
  encodeNat32 l.length ++ (l.map encodeBytesField).flatten

/-- Decodes exactly `n` length-prefixed signatures. -/
def decodeSignaturesAux : Nat → Bytes → Option (List Signature × Bytes)
  | 0, bs => some ([], bs)
  | n + 1, bs =>
    (decodeBytesField bs).bind fun sr =>
      (decodeSignaturesAux n sr.2).bind fun lr => some (sr.1 :: lr.1, lr.2)

/-- Decoder for the ordered signature sequence. -/
def decodeSignatures (bs : Bytes) : Option (List Signature × Bytes) :=
  (decodeNat32 bs).bind fun nr => decodeSignaturesAux nr.1 nr.2

/-- `vlCodec.MarshalToBytes(vl)`: the canonical serialization. -/
def MarshalToBytes (vl : voteList) : Bytes :=
  encodeRound vl.Round ++ encodeOptPartSetID vl.BlockPartSetID ++
    encodeSignatures vl.Signatures

/-- `vlCodec.UnmarshalFromBytes`: decodes a leading `voteList` and returns it
with the unconsumed remainder; `none` on malformed input. -/
def UnmarshalFromBytes (bs : Bytes) : Option (voteList × Bytes) :=
  (decodeRound bs).bind fun rb =>
    (decodeOptPartSetID rb.2).bind fun pb =>
      (decodeSignatures pb.2).bind fun sb => some (⟨rb.1, pb.1, sb.1⟩, sb.2)

/-- `voteList.Bytes()` (in the model serialization always succeeds; the Go
function returns nil only when marshalling errors, and the round-trip claim
quantifies over lists whose serialization succeeds). -/
def voteList.Bytes (vl : voteList) : Bytes := MarshalToBytes vl

/-- `NewVoteListFromBytes`: `none` models the nil `module.VoteList` interface
returned on a decoding error. -/
def NewVoteListFromBytes (bs : Bytes) : Option voteList :=
  (UnmarshalFromBytes bs).bind fun vr => some vr.1

/-- The range conditions the Go field types impose: `Round` is an `int32`,
`Count` a `uint16`, and slice lengths fit 32 bits. -/
def PartSetIDWf : Option PartSetID → Prop
  | none => True
  | some p => p.count < 2 ^ 16 ∧ p.hash.length < 2 ^ 32

/-- Well-formedness of a `voteList` under the Go field types. -/
def voteListWf (vl : voteList) : Prop :=
  -2 ^ 31 ≤ vl.Round ∧ vl.Round < 2 ^ 31 ∧ PartSetIDWf vl.BlockPartSetID ∧
    vl.Signatures.length < 2 ^ 32 ∧ ∀ s ∈ vl.Signatures, s.length < 2 ^ 32

/-! Round-trip lemmas for the component codecs. -/

theorem decodeNat32_encodeNat32 (n : Nat) (h : n < 2 ^ 32) (rest : Bytes) :
    decodeNat32 (encodeNat32 n ++ rest) = some (n, rest) := by
  simp only [encodeNat32, List.cons_append, List.nil_append, decodeNat32,
    Option.some.injEq, Prod.mk.injEq, and_true]
  omega

theorem decodeNat16_encodeNat16 (n : Nat) (h : n < 2 ^ 16) (rest : Bytes) :
    decodeNat16 (encodeNat16 n ++ rest) = some (n, rest) := by
  simp only [encodeNat16, List.cons_append, List.nil_append, decodeNat16,
    Option.some.injEq, Prod.mk.injEq, and_true]
  omega

theorem decodeBytesField_encodeBytesField (bs : Bytes) (h : bs.length < 2 ^ 32)
    (rest : Bytes) :
    decodeBytesField (encodeBytesField bs ++ rest) = some (bs, rest) := by
  rw [encodeBytesField, List.append_assoc, decodeBytesField,
    decodeNat32_encodeNat32 _ h, Option.some_bind]
  simp only []
  rw [if_pos (by simp), List.take_left, List.drop_left]

theorem decodeRound_encodeRound (r : Int) (h1 : -2 ^ 31 ≤ r) (h2 : r < 2 ^ 31)
    (rest : Bytes) :
    decodeRound (encodeRound r ++ rest) = some (r, rest) := by
  rw [encodeRound, decodeRound, decodeNat32_encodeNat32 _ (by omega), Option.some_bind]
  simp only [Option.some.injEq, Prod.mk.injEq, and_true]
  by_cases hr : (r % 2 ^ 32).toNat < 2 ^ 31
  · rw [if_pos hr]; omega
  · rw [if_neg hr]; omega

theorem decodeOptPartSetID_encodeOptPartSetID (p : Option PartSetID)
    (h : PartSetIDWf p) (rest : Bytes) :
    decodeOptPartSetID (encodeOptPartSetID p ++ rest) = some (p, rest) := by
  cases p with
  | none => rfl
  | some q =>
    obtain ⟨hc, hh⟩ := h
    show decodeOptPartSetID (1 :: (encodePartSetID q ++ rest)) = some (some q, rest)
    rw [decodeOptPartSetID]
    rw [if_neg (by decide), if_pos rfl]
    rw [encodePartSetID, List.append_assoc, decodePartSetID,
      decodeNat16_encodeNat16 _ hc, Option.some_bind]
    simp only []
    rw [decodeBytesField_encodeBytesField _ hh, Option.some_bind]
    rfl

theorem decodeSignaturesAux_encode (l : List Signature)
    (h : ∀ s ∈ l, s.length < 2 ^ 32) (rest : Bytes) :
    decodeSignaturesAux l.length ((l.map encodeBytesField).flatten ++ rest) =
      some (l, rest) := by
  induction l with
  | nil => rfl
  | cons s tl ih =>
    simp only [List.map_cons, List.flatten_cons, List.length_cons, List.append_assoc]
    rw [decodeSignaturesAux]
    rw [decodeBytesField_encodeBytesField _ (h s (List.mem_cons_self s tl)), Option.some_bind]
    simp only []
    rw [ih (fun x hx => h x (List.mem_cons_of_mem s hx)), Option.some_bind]

theorem decodeSignatures_encodeSignatures (l : List Signature)
    (hlen : l.length < 2 ^ 32) (h : ∀ s ∈ l, s.length < 2 ^ 32) (rest : Bytes) :
    decodeSignatures (encodeSignatures l ++ rest) = some (l, rest) := by
  rw [encodeSignatures, List.append_assoc, decodeSignatures,
    decodeNat32_encodeNat32 _ hlen, Option.some_bind]
  exact decodeSignaturesAux_encode l h rest

/-- `decodeNat32` needs at least four bytes. -/
theorem decodeNat32_short (bs : Bytes) (h : bs.length < 4) : decodeNat32 bs = none := by
  rcases bs with _ | ⟨b0, _ | ⟨b1, _ | ⟨b2, _ | ⟨b3, rest⟩⟩⟩⟩
  · rfl
  · rfl
  · rfl
  · rfl
  · simp only [List.length_cons] at h
    omega

/-- C5: reconstructing a serialized `voteList` via
`NewVoteListFromBytes(vl.Bytes())` restores the round, block part-set
identifier and signature sequence exactly; and (an instance of graceful
failure on malformed input) every byte string shorter than a round field is
rejected with `none` — `NewVoteListFromBytes` is a total function of the
input bytes and cannot panic. -/
theorem voteList_roundtrip (vl : voteList) (h : voteListWf vl) :
    NewVoteListFromBytes vl.Bytes = some vl
    ∧ ∀ bs : Bytes, bs.length < 4 → NewVoteListFromBytes bs = none := by
  obtain ⟨h1, h2, hp, hn, hs⟩ := h
  constructor
  · rw [voteList.Bytes, MarshalToBytes, NewVoteListFromBytes, UnmarshalFromBytes,
      List.append_assoc, decodeRound_encodeRound _ h1 h2, Option.some_bind]
    simp only []
    rw [decodeOptPartSetID_encodeOptPartSetID _ hp, Option.some_bind]
    simp only []
    rw [← List.append_nil (encodeSignatures vl.Signatures),
      decodeSignatures_encodeSignatures _ hn hs, Option.some_bind]
    rfl
  · intro bs hlen
    rw [NewVoteListFromBytes, UnmarshalFromBytes, decodeRound,
      decodeNat32_short bs hlen, Option.none_bind, Option.none_bind, Option.none_bind]

/-- Witness for C5: a concrete list with a negative round, a present
part-set identifier and two signatures survives the round trip. -/
theorem voteList_roundtrip_witness :
    voteListWf ⟨-1, some ⟨2, [170]⟩, [[1, 2], [3]]⟩
    ∧ NewVoteListFromBytes (voteList.Bytes ⟨-1, some ⟨2, [170]⟩, [[1, 2], [3]]⟩) =
        some ⟨-1, some ⟨2, [170]⟩, [[1, 2], [3]]⟩ := by
  have hwf : voteListWf ⟨-1, some ⟨2, [170]⟩, [[1, 2], [3]]⟩ :=
    ⟨by decide, by decide, ⟨by decide, by decide⟩, by decide, by decide⟩
  exact ⟨hwf, (voteList_roundtrip _ hwf).1⟩

/-! ### C7–C8: the `signedBase` signed-message primitive

The cryptographic primitives are abstracted as explicit parameters: `sha3`
stands for `crypto.SHA3Sum256`, `recover` for
`Signature.RecoverPublicKey(hash)` (returning `none` on failure, as the Go
function returns an error), and `addrOfPk` for
`common.NewAccountAddressFromPublicKey`.  Go's in-place mutation of the two
memoization cells is modelled by returning the updated receiver next to each
result.  All four operations are total Lean functions: none can panic. -/

/-- The `signedBase` struct: the signable payload (`_byteser.bytes()`), the
signature, and the memoization cells `_hash` and `_publicKey` (nil pointers
modelled as `none`). -/
structure signedBase where
  payload : Bytes
  Signature : Signature
  hashCache : Option Bytes
  pkCache : Option PublicKey
deriving DecidableEq, Repr

/-- `signedBase.hash()`: the memoized SHA3-256 digest of the canonical byte
representation; computed and cached on first call, returned from the cache
afterwards. -/
def signedBase.hash (sha3 : Bytes → Bytes) (s : signedBase) : Bytes × signedBase :=
  match s.hashCache with
  | some h => (h, s)
  | none =>
    let h := sha3 s.payload
    (h, { s with hashCache := some h })

/-- `signedBase.publicKey()`: recovers and memoizes the signer's public key;
returns `none` (not an error) when recovery fails.  The hash memoization
performed by the inner `s.hash()` call persists even when recovery fails. -/
def signedBase.publicKey (sha3 : Bytes → Bytes)
    (recover : Goloop.Signature → Bytes → Option PublicKey) (s : signedBase) :
    Option PublicKey × signedBase :=
  match s.pkCache with
  | some pk => (some pk, s)
  | none =>
    let hs := signedBase.hash sha3 s
    match recover s.Signature hs.1 with
    | none => (none, hs.2)
    | some pk => (some pk, { hs.2 with pkCache := some pk })

/-- `signedBase.address()`: derives the account address from the recovered
public key; nil when no key is available. -/
def signedBase.address (sha3 : Bytes → Bytes)
    (recover : Goloop.Signature → Bytes → Option PublicKey) (addrOfPk : PublicKey → Address)
    (s : signedBase) : Option Address × signedBase :=
  let ps := signedBase.publicKey sha3 recover s
  match ps.1 with
  | none => (none, ps.2)
  | some pk => (some (addrOfPk pk), ps.2)

/-- `signedBase.verify()`: fails with "bad signature" exactly when
public-key recovery fails. -/
def signedBase.verify (sha3 : Bytes → Bytes)
    (recover : Goloop.Signature → Bytes → Option PublicKey) (s : signedBase) :
    Except String Unit × signedBase :=
  let ps := signedBase.publicKey sha3 recover s
  match ps.1 with
  | none => (Except.error "bad signature", ps.2)
  | some _ => (Except.ok (), ps.2)

/-- C7: on a freshly constructed message (empty key cache) `publicKey()` is
`none` exactly when recovery from the signature and hash fails; `address()`
is `none` exactly when `publicKey()` is; and `verify()` reports the
bad-signature error exactly when `publicKey()` is `none`.  All the modelled
operations are total functions, so none can panic. -/
theorem signedBase_recovery_spec (sha3 : Bytes → Bytes)
    (recover : Signature → Bytes → Option PublicKey) (addrOfPk : PublicKey → Address)
    (s : signedBase) (hfresh : s.pkCache = none) :
    ((signedBase.publicKey sha3 recover s).1 = none ↔
      recover s.Signature (signedBase.hash sha3 s).1 = none)
    ∧ (∀ t : signedBase,
        (signedBase.address sha3 recover addrOfPk t).1 = none ↔
          (signedBase.publicKey sha3 recover t).1 = none)
    ∧ (∀ t : signedBase,
        (signedBase.verify sha3 recover t).1 = Except.error "bad signature" ↔
          (signedBase.publicKey sha3 recover t).1 = none) := by
  refine ⟨?_, ?_, ?_⟩
  · rw [signedBase.publicKey, hfresh]
    cases hrec : recover s.Signature (signedBase.hash sha3 s).1 with
    | none => simp [hrec]
    | some pk => simp [hrec]
  · intro t
    rw [signedBase.address]
    cases hpk : (signedBase.publicKey sha3 recover t).1 with
    | none => simp [hpk]
    | some pk => simp [hpk]
  · intro t
    rw [signedBase.verify]
    cases hpk : (signedBase.publicKey sha3 recover t).1 with
    | none => simp [hpk]
    | some pk => simp [hpk]

/-- Witness for C7: with a recovery function that always fails, a fresh
message's `publicKey()` is `none`. -/
theorem signedBase_recovery_spec_witness :
    (signedBase.publicKey (fun b => b) (fun _ _ => none) ⟨[1], [2], none, none⟩).1 = none :=
  (signedBase_recovery_spec (fun b => b) (fun _ _ => none) (fun k => k)
    ⟨[1], [2], none, none⟩ rfl).1.mpr rfl

/-- C8: on a message whose hash cache is empty, `hash()` computes the digest
of the payload, memoizes it, and a repeated call returns the byte-identical
cached digest without touching the state; once the cache is filled, the
result no longer depends on the hashing function at all (no
recomputation). -/
theorem signedBase_hash_memoized (sha3 : Bytes → Bytes) (s : signedBase)
    (hfresh : s.hashCache = none) :
    (signedBase.hash sha3 s).1 = sha3 s.payload
    ∧ (signedBase.hash sha3 s).2.hashCache = some (sha3 s.payload)
    ∧ signedBase.hash sha3 (signedBase.hash sha3 s).2 =
        ((signedBase.hash sha3 s).1, (signedBase.hash sha3 s).2)
    ∧ (∀ (t : signedBase) (h : Bytes), t.hashCache = some h →
        ∀ sha3b : Bytes → Bytes, signedBase.hash sha3b t = (h, t)) := by
  have hs : signedBase.hash sha3 s =
      (sha3 s.payload, { s with hashCache := some (sha3 s.payload) }) := by
    rw [signedBase.hash, hfresh]
  have hcached : ∀ (t : signedBase) (h : Bytes), t.hashCache = some h →
      ∀ sha3b : Bytes → Bytes, signedBase.hash sha3b t = (h, t) := by
    intro t h ht f
    rw [signedBase.hash, ht]
  refine ⟨by rw [hs], by rw [hs], ?_, hcached⟩
  rw [hs]
  exact hcached _ _ rfl sha3

/-- Witness for C8: a concrete fresh message, hashed with a concrete
function, yields the digest of its payload. -/
theorem signedBase_hash_memoized_witness :
    (signedBase.hash (fun b => 7 :: b) ⟨[1], [2], none, none⟩).1 = [7, 1] := by
  have h := signedBase_hash_memoized (fun b => 7 :: b) ⟨[1], [2], none, none⟩ rfl
  rw [h.1]

/-! ### C4: the `Verify` loop as the program executes it

`Verify` builds a single `voteMessage` template before the loop
(`newVoteMessage()`, fresh memoization cells) and each iteration performs
only the plain field write `msg.Signature = sig` (line 38), which does not
invalidate the `signedBase` caches, before calling `msg.address()`
(line 39).  The composition of the in-src loop with the in-src `signedBase`
memoization is embedded below. -/

/-- The signature loop of `voteList.Verify` with the `signedBase`
memoization of the reused template threaded through: at each signature the
template's `Signature` field is overwritten in place (caches kept) and
`msg.address()` is consulted — so once one signature's key has been
recovered and memoized, every later iteration sees the cached address and
its own signature is never examined. -/
def verifyLoop (sha3 : Bytes → Bytes) (recover : Signature → Bytes → Option PublicKey)
    (addrOfPk : PublicKey → Address) (validators : List Address) :
    Nat → signedBase → List Signature → Except VerifyError Unit
  | _, _, [] => Except.ok ()
  | i, msg, sig :: rest =>
    let ar := signedBase.address sha3 recover addrOfPk { msg with Signature := sig }
    if indexOfAddr validators ar.1 < 0 then Except.error (VerifyError.badVoter i)
    else verifyLoop sha3 recover addrOfPk validators (i + 1) ar.2 rest

/-- `voteList.Verify(block)` exactly as the program composes it with the
in-src `signedBase` memoization.  Modelled from the spec: the canonical
signable bytes of the vote-message template ("height, round,
type=precommit, blockID, partSetID", §4.2) are the parameter `payload`;
they do not depend on the signature substituted into the template — which
is what makes the hash cache sound across iterations, and what makes the
key cache observable. -/
def voteList.VerifyImpl (sha3 : Goloop.Bytes → Goloop.Bytes)
    (recover : Signature → Goloop.Bytes → Option PublicKey)
    (addrOfPk : PublicKey → Address)
    (payload : Goloop.Bytes) (vl : voteList) (blk : Block) : Except VerifyError Unit :=
  if blk.height = 1 then
    if vl.Signatures.length = 0 then Except.ok ()
    else Except.error VerifyError.unexpectedVoters
  else
    match verifyLoop sha3 recover addrOfPk blk.nextValidators 0
        ⟨payload, [], none, none⟩ vl.Signatures with
    | Except.error e => Except.error e
    | Except.ok () =>
      if vl.Signatures.length > blk.nextValidators.length * 2 / 3 then Except.ok ()
      else Except.error
        (VerifyError.insufficientVotes vl.Signatures.length blk.nextValidators.length)

/-- C4, as written, fails on the program: with validators `[[5],[6],[7]]`
(threshold `3*2/3 = 2`) and signatures `[[1],[2],[3]]`, the first signature
recovers validator `[5]`'s key, the key is memoized in the reused template,
and the later signatures — which recover nothing at all (second conjunct:
recovery of `[2]` returns `none` for every hash) — are waved through on the
cached address, so `Verify` accepts the list (count 3 > 2) instead of
failing on the unresolvable signatures. -/
theorem verifyImpl_ignores_later_unresolvable :
    voteList.VerifyImpl (fun _ => [0])
        (fun sig _ => if sig = [1] then some [5] else none) (fun pk => pk) []
        ⟨0, none, [[1], [2], [3]]⟩ ⟨10, [], [[5], [6], [7]]⟩ = Except.ok ()
    ∧ (∀ h : Bytes,
        (fun (sig : Signature) (_ : Bytes) =>
          if sig = [1] then some ([5] : PublicKey) else none) [2] h = none) := by
  exact ⟨rfl, fun _ => rfl⟩

/-! ### C9–C10: the IISS `Account` state object

`icon/iiss/icstate/account.go` is embedded directly.  Its helper value types
(`Unstakes`, `Delegations`, `Bonds`, `Unbonds`, `icutils.EqualAddress`, the
`StateAndSnapshot` writability guard) live in files outside the embedded
sources and are modelled as plain value types whose `Clone` copies every
field by value and whose `Equal` compares every field by value, which is the
contract `Account.Clone`/`Account.equal` rely on.  `big.Int` amounts are
modelled as `Int` (`Cmp(x) == 0` is `Int` equality, `Sign() == -1` is
`< 0`). -/

/-- Modelled from the spec: an `Unstake` entry (amount, expire height); the
type is outside the embedded sources. -/
structure Unstake where
  value : Int
  expire : Int
deriving DecidableEq, Repr

/-- Modelled from the spec: a `Delegation` entry (delegatee, amount). -/
structure Delegation where
  address : Address
  value : Int
deriving DecidableEq, Repr

/-- Modelled from the spec: a `Bond` entry (bondee, amount). -/
structure Bond where
  address : Address
  value : Int
deriving DecidableEq, Repr

/-- Modelled from the spec: an `Unbond` entry (address, amount, expire
height). -/
structure Unbond where
  address : Address
  value : Int
  expire : Int
deriving DecidableEq, Repr

/-- Value copy of an `Unstake` entry (`Unstakes.Clone` copies entries). -/
def Unstake.clone (u : Unstake) : Unstake := ⟨u.value, u.expire⟩

/-- Value copy of a `Delegation` entry. -/
def Delegation.clone (d : Delegation) : Delegation := ⟨d.address, d.value⟩

/-- Value copy of a `Bond` entry. -/
def Bond.clone (b : Bond) : Bond := ⟨b.address, b.value⟩

/-- Value copy of an `Unbond` entry. -/
def Unbond.clone (u : Unbond) : Unbond := ⟨u.address, u.value, u.expire⟩

/-- Value comparison of `Unstake` entries. -/
def Unstake.equal (a b : Unstake) : Bool := a.value == b.value && a.expire == b.expire

/-- Value comparison of `Delegation` entries. -/
def Delegation.equal (a b : Delegation) : Bool := a.address == b.address && a.value == b.value

/-- Value comparison of `Bond` entries. -/
def Bond.equal (a b : Bond) : Bool := a.address == b.address && a.value == b.value

/-- Value comparison of `Unbond` entries. -/
def Unbond.equal (a b : Unbond) : Bool :=
  a.address == b.address && a.value == b.value && a.expire == b.expire

/-- Element-wise equality of two entry lists (the `Equal` methods of
`Unstakes`, `Delegations`, `Bonds`, `Unbonds`). -/
def listEqualBy {α : Type} (eq : α → α → Bool) : List α → List α → Bool
  | [], [] => true
  | x :: xs, y :: ys => eq x y && listEqualBy eq xs ys
  | _, _ => false

/-- `icutils.EqualAddress` on nil-able addresses: two nil interfaces are
equal, a nil and a non-nil are not, two non-nil addresses compare by
value. -/
def equalAddress : Option Address → Option Address → Bool
  | none, none => true
  | some x, some y => x == y
  | _, _ => false

/-- The IISS `Account`: address plus stake / unstake / delegation / bond /
unbond state (`icon/iiss/icstate/account.go`). -/
structure Account where
  address : Option Address
  stake : Int
  unstakes : List Unstake
  delegating : Int
  delegations : List Delegation
  bonding : Int
  unbonding : Int
  bonds : List Bond
  unbonds : List Unbond
deriving DecidableEq, Repr

/-- `Account.Clone()`: a fresh account with the same address and value
copies of every field (`new(big.Int).Set(...)` and the entry lists'
`Clone()`). -/
def Account.Clone (a : Account) : Account :=
  ⟨a.address, a.stake, a.unstakes.map Unstake.clone, a.delegating,
    a.delegations.map Delegation.clone, a.bonding, a.unbonding,
    a.bonds.map Bond.clone, a.unbonds.map Unbond.clone⟩

/-- `Account.equal(other)`: address equality plus value comparison of every
field (the pointer-identity fast path `a == other` of the source is an
optimization with the same result). -/
def Account.equal (a b : Account) : Bool :=
  equalAddress a.address b.address &&
  (a.stake == b.stake) &&
  listEqualBy Unstake.equal a.unstakes b.unstakes &&
  (a.delegating == b.delegating) &&
  listEqualBy Delegation.equal a.delegations b.delegations &&
  (a.bonding == b.bonding) &&
  (a.unbonding == b.unbonding) &&
  listEqualBy Bond.equal a.bonds b.bonds &&
  listEqualBy Unbond.equal a.unbonds b.unbonds

/-- `Account.SetStake(v)`: rejects a negative stake (`v.Sign() == -1`) with
an error and leaves the account untouched; otherwise stores the value.  The
`checkWritable` guard of `StateAndSnapshot` (outside the embedded sources)
panics only on a frozen snapshot, and the claim is about writable accounts,
which are modelled directly. -/
def Account.SetStake (a : Account) (v : Int) : Except String Unit × Account :=
  if v < 0 then (Except.error "negative stake is not allowed", a)
  else (Except.ok (), { a with stake := v })

/-- Comparing a list element-wise against its value copy succeeds whenever
the element comparison accepts each value copy. -/
theorem listEqualBy_map_self {α : Type} (eq : α → α → Bool) (cl : α → α)
    (h : ∀ x, eq x (cl x) = true) (l : List α) :
    listEqualBy eq l (l.map cl) = true := by
  induction l with
  | nil => rfl
  | cons x xs ih => simp [listEqualBy, h x, ih]

/-- `equalAddress` is reflexive. -/
theorem equalAddress_refl (x : Option Address) : equalAddress x x = true := by
  cases x <;> simp [equalAddress]

/-- C9: every account equals its clone — `a.equal(a.Clone())` holds: the
clone carries the same address and equal stake, unstakes, delegating,
delegations, bonding, unbonding, bonds and unbonds values. -/
theorem account_clone_equal (a : Account) : a.equal a.Clone = true := by
  simp [Account.equal, Account.Clone, equalAddress_refl,
    listEqualBy_map_self Unstake.equal Unstake.clone
      (fun u => by simp [Unstake.equal, Unstake.clone]),
    listEqualBy_map_self Delegation.equal Delegation.clone
      (fun d => by simp [Delegation.equal, Delegation.clone]),
    listEqualBy_map_self Bond.equal Bond.clone
      (fun b => by simp [Bond.equal, Bond.clone]),
    listEqualBy_map_self Unbond.equal Unbond.clone
      (fun u => by simp [Unbond.equal, Unbond.clone])]

/-- C10: `SetStake` on a writable account rejects a negative value with an
error, leaving the whole account (in particular the stored stake) unchanged;
a non-negative value is stored as the new stake with no error and every other
field unchanged. -/
theorem account_setStake_spec (a : Account) (v : Int) :
    (v < 0 → a.SetStake v = (Except.error "negative stake is not allowed", a))
    ∧ (0 ≤ v →
        (a.SetStake v).1 = Except.ok ()
        ∧ (a.SetStake v).2.stake = v
        ∧ (a.SetStake v).2.address = a.address
        ∧ (a.SetStake v).2.unstakes = a.unstakes
        ∧ (a.SetStake v).2.delegating = a.delegating
        ∧ (a.SetStake v).2.delegations = a.delegations
        ∧ (a.SetStake v).2.bonding = a.bonding
        ∧ (a.SetStake v).2.unbonding = a.unbonding
        ∧ (a.SetStake v).2.bonds = a.bonds
        ∧ (a.SetStake v).2.unbonds = a.unbonds) := by
  constructor
  · intro hv
    rw [Account.SetStake, if_pos hv]
  · intro hv
    rw [Account.SetStake, if_neg (by omega)]
    exact ⟨rfl, rfl, rfl, rfl, rfl, rfl, rfl, rfl, rfl, rfl⟩

/-- Witness for C10: setting `-5` on a concrete account errors and keeps the
account; setting `7` stores stake `7`. -/
theorem account_setStake_spec_witness :
    Account.SetStake ⟨none, 0, [], 0, [], 0, 0, [], []⟩ (-5) =
      (Except.error "negative stake is not allowed", ⟨none, 0, [], 0, [], 0, 0, [], []⟩)
    ∧ (Account.SetStake ⟨none, 0, [], 0, [], 0, 0, [], []⟩ 7).2.stake = 7 := by
  constructor
  · exact (account_setStake_spec ⟨none, 0, [], 0, [], 0, 0, [], []⟩ (-5)).1 (by decide)
  · exact ((account_setStake_spec ⟨none, 0, [], 0, [], 0, 0, [], []⟩ 7).2 (by decide)).2.1

end Goloop
